import Mathlib

/-!
Verification of the minass assertion library (`minass.go`) against its
specification. The Go source is shallowly embedded: dynamically typed Go
values become the inductive `GoVal`; the mutable assertion chain becomes
explicit state passing; calls to the host failure sink (`t.Errorf`) are
collected in an ordered list of `Message` values; a Go `panic` escaping an
assertion method is an `Except.error` carrying the panic message.

Modelling conventions, used throughout:
- `time.Duration` values appear only rendered (`%s`), so a duration is
  modelled by its rendered string.
- Printf-style rendering (`fmt.Fprintf`) is modelled by `sprintf`, which
  implements the verbs the source uses; `%+v` rendering of composite values
  is best-effort (no theorem depends on its exact output).
- The failure sink receives `(Message.render m)` for each `m` the check
  appends to its `sink` list; the list records the sink invocations in order.
-/

namespace Minass

/-- Go runtime kinds, as returned by `reflect.Value.Kind()`, restricted to the
kinds the embedded values can take. -/
inductive GoKind where
  | kinvalid
  | kptr
  | kslice
  | kmap
  | kstring
  | kbool
  | kint
  | kchan
  | kfunc
  | kstruct
deriving DecidableEq, Repr

/-- Go types, as compared by `reflect.Type` equality in `reflectHasKey`.
Flat: the embedded map keys are scalars, for which a flat tag decides
`containerType.Key() != keyType` exactly. -/
inductive GoType where
  | tnone
  | tstring
  | tbytes
  | tbool
  | tint
  | tptr
  | tslice
  | tmap
  | tchan
  | tfunc
  | tstruct
deriving DecidableEq, Repr

mutual
/-- A dynamically typed Go value (`interface\x7b\x7d`), covering the shapes the
library inspects: nil interface, strings, byte slices, booleans, ints,
pointers (nil or at a value), slices, maps (carrying their declared key
type plus entries), channels, functions, and `io.Reader` values (modelled
by the byte content a full drain yields). -/
inductive GoVal where
  | nilv
  | str (s : String)
  | bytes (data : String)
  | boolean (b : Bool)
  | intv (n : Int)
  | ptrNil
  | ptrTo (v : GoVal)
  | slice (xs : GoList)
  | mapv (kt : GoType) (entries : GoEntries)
  | chanv
  | funcv
  | reader (data : String)

/-- A list of Go values (slice contents). -/
inductive GoList where
  | lnil
  | lcons (v : GoVal) (rest : GoList)

/-- Map entries: key/value pairs in iteration order. -/
inductive GoEntries where
  | enil
  | econs (k v : GoVal) (rest : GoEntries)
end

mutual
/-- Equality of Go values; models both `reflect.DeepEqual` and the interface
comparison `==` on the comparable values the source applies it to. -/
def GoVal.beq : GoVal → GoVal → Bool
  | .nilv, .nilv => true
  | .str a, .str b => a == b
  | .bytes a, .bytes b => a == b
  | .boolean a, .boolean b => a == b
  | .intv a, .intv b => a == b
  | .ptrNil, .ptrNil => true
  | .ptrTo a, .ptrTo b => GoVal.beq a b
  | .slice a, .slice b => GoList.beq a b
  | .mapv kta a, .mapv ktb b => kta == ktb && GoEntries.beq a b
  | .chanv, .chanv => true
  | .funcv, .funcv => true
  | .reader a, .reader b => a == b
  | _, _ => false

/-- Elementwise equality of Go value lists. -/
def GoList.beq : GoList → GoList → Bool
  | .lnil, .lnil => true
  | .lcons a as, .lcons b bs => GoVal.beq a b && GoList.beq as bs
  | _, _ => false

/-- Entrywise equality of map entry lists. -/
def GoEntries.beq : GoEntries → GoEntries → Bool
  | .enil, .enil => true
  | .econs ka va as, .econs kb vb bs =>
      GoVal.beq ka kb && GoVal.beq va vb && GoEntries.beq as bs
  | _, _ => false
end

/-- Build a `GoList` from a Lean list. -/
def GoList.ofList : List GoVal → GoList
  | [] => .lnil
  | x :: xs => .lcons x (GoList.ofList xs)

/-- The runtime kind of an embedded value (`reflect.ValueOf(v).Kind()`);
a nil interface gives the zero `reflect.Value`, whose kind is Invalid, and
`[]byte` has kind Slice. -/
def goKind : GoVal → GoKind
  | .nilv => .kinvalid
  | .str _ => .kstring
  | .bytes _ => .kslice
  | .boolean _ => .kbool
  | .intv _ => .kint
  | .ptrNil => .kptr
  | .ptrTo _ => .kptr
  | .slice _ => .kslice
  | .mapv _ _ => .kmap
  | .chanv => .kchan
  | .funcv => .kfunc
  | .reader _ => .kstruct

/-- The Go type tag of an embedded value (`reflect.TypeOf(v)`);
`reflect.TypeOf(nil)` is the nil type, tagged `tnone`. -/
def goTypeOf : GoVal → GoType
  | .nilv => .tnone
  | .str _ => .tstring
  | .bytes _ => .tbytes
  | .boolean _ => .tbool
  | .intv _ => .tint
  | .ptrNil => .tptr
  | .ptrTo _ => .tptr
  | .slice _ => .tslice
  | .mapv _ _ => .tmap
  | .chanv => .tchan
  | .funcv => .tfunc
  | .reader _ => .tstruct

/-- The `%T` rendering of a value's dynamic type. Composite element types are
not tracked by the embedding, so their names are best-effort; no theorem
depends on them. `%T` of a nil interface prints `<nil>`. -/
def fmtT : GoVal → String
  | .nilv => "<nil>"
  | .str _ => "string"
  | .bytes _ => "[]uint8"
  | .boolean _ => "bool"
  | .intv _ => "int"
  | .ptrNil => "*elem"
  | .ptrTo _ => "*elem"
  | .slice _ => "[]elem"
  | .mapv _ _ => "map[k]elem"
  | .chanv => "chan elem"
  | .funcv => "func()"
  | .reader _ => "reader"

mutual
/-- Best-effort `%v` / `%+v` / `%s` rendering of a value. -/
def fmtV : GoVal → String
  | .nilv => "<nil>"
  | .str s => s
  | .bytes s => s
  | .boolean b => if b then ("true") else ("false")
  | .intv n => toString n
  | .ptrNil => "<nil>"
  | .ptrTo v => "&" ++ fmtV v
  | .slice xs => "[" ++ fmtVList xs ++ "]"
  | .mapv _ es => "map[" ++ fmtVEntries es ++ "]"
  | .chanv => "<chan>"
  | .funcv => "<func>"
  | .reader _ => "<reader>"

/-- Space-separated rendering of slice elements. -/
def fmtVList : GoList → String
  | .lnil => ""
  | .lcons x .lnil => fmtV x
  | .lcons x xs => fmtV x ++ " " ++ fmtVList xs

/-- Space-separated `k:v` rendering of map entries. -/
def fmtVEntries : GoEntries → String
  | .enil => ""
  | .econs k v .enil => fmtV k ++ ":" ++ fmtV v
  | .econs k v es => fmtV k ++ ":" ++ fmtV v ++ " " ++ fmtVEntries es
end

/-- Character-level model of `fmt.Sprintf` for the verbs the source uses
(`%s`, `%d`, `%t`, `%T`, `%+v`); anything else is copied through. -/
def sprintfAux : List Char → List GoVal → List Char
  | [], _ => []
  | '%' :: '+' :: 'v' :: rest, a :: args => (fmtV a).toList ++ sprintfAux rest args
  | '%' :: 's' :: rest, a :: args => (fmtV a).toList ++ sprintfAux rest args
  | '%' :: 'd' :: rest, a :: args => (fmtV a).toList ++ sprintfAux rest args
  | '%' :: 't' :: rest, a :: args => (fmtV a).toList ++ sprintfAux rest args
  | '%' :: 'T' :: rest, a :: args => (fmtT a).toList ++ sprintfAux rest args
  | c :: rest, args => c :: sprintfAux rest args

/-- String-level `fmt.Sprintf` model. -/
def sprintf (format : String) (args : List GoVal) : String :=
  String.mk (sprintfAux format.toList args)

/-- Character lists `sub` and `l`: does `sub` occur at the head of `l`? -/
def charsStart : List Char → List Char → Bool
  | [], _ => true
  | _ :: _, [] => false
  | a :: as, b :: bs => a == b && charsStart as bs

/-- Does `sub` occur anywhere within `l`? -/
def charsFind (sub : List Char) : List Char → Bool
  | [] => charsStart sub []
  | b :: bs => charsStart sub (b :: bs) || charsFind sub bs

/-- `strings.Contains(s, sub)`: `sub` occurs as a substring of `s`. -/
def strContains (s sub : String) : Bool :=
  charsFind sub.toList s.toList

/-- The type assertion `v.(string)`: the string payload when the dynamic type
is `string`, otherwise nothing. -/
def goAsString : GoVal → Option String
  | .str s => some s
  | _ => none

/-- The type assertion `v.(bool)`. -/
def goAsBool : GoVal → Option Bool
  | .boolean b => some b
  | _ => none

/-- Embeds the `message` struct of the source: the caller-supplied test
message format and its arguments, the `[file:line]` prefix captured at
construction (source field `prefix`, renamed here), and the assertion
message format, arguments and multiline flag set by `errorf` /
`multiLineErrorf`. -/
structure Message where
  testMessage : String
  testArgs : List GoVal
  assertionPfx : String
  assertionMessage : String
  assertionArgs : List GoVal
  assertionMultiline : Bool

/-- Embeds `message.errorf`: records the assertion format and arguments; the
resulting message is what `t.Errorf(m.String())` reports, so the caller
appends it to its sink list. -/
def Message.errorf (m : Message) (format : String) (args : List GoVal) : Message :=
  { m with assertionMessage := format, assertionArgs := args }

/-- Embeds `message.multiLineErrorf`: sets the multiline flag and then
behaves as `errorf`. -/
def Message.multiLineErrorf (m : Message) (format : String) (args : List GoVal) : Message :=
  { m with assertionMultiline := true, assertionMessage := format, assertionArgs := args }

/-- Embeds `message.String`: the prefix, then either the compact single-line
form or the expanded multi-line form, mirroring the source's builder flow. -/
def Message.render (m : Message) : String :=
  let b := m.assertionPfx
  if m.testMessage == "" && !m.assertionMultiline then
    b ++ " " ++ sprintf m.assertionMessage m.assertionArgs
  else
    let b := if m.testMessage != "" then
        b ++ "\n" ++ sprintf m.testMessage m.testArgs
      else b
    b ++ "\n" ++ sprintf m.assertionMessage m.assertionArgs

/-- Embeds the `assertion` struct: the inversion flag and the `[file:line]`
prefix (source field `prefix`, renamed here). The testing handle `t` is
represented by the sink lists the checks return. -/
structure Assertion where
  invert : Bool
  pfx : String
deriving DecidableEq, Repr

/-- Embeds `assertion.Invert`: sets the invert flag to true. -/
def Assertion.Invert (a : Assertion) : Assertion :=
  { a with invert := true }

/-- Embeds `assertion.message`: builds the message from the variadic trailing
arguments. If arguments are present and the first is not a string, the
source panics with this exact text; the panic is the `Except.error` case and
carries no sink invocation. -/
def Assertion.message (a : Assertion) (vals : List GoVal) : Except String Message :=
  match vals with
  | [] =>
      .ok { testMessage := "", testArgs := [], assertionPfx := a.pfx,
            assertionMessage := "", assertionArgs := [], assertionMultiline := false }
  | v :: rest =>
      match goAsString v with
      | some msg =>
          .ok { testMessage := msg, testArgs := rest, assertionPfx := a.pfx,
                assertionMessage := "", assertionArgs := [], assertionMultiline := false }
      | none => .error ("first parameter after expected value must be a string")

/-- Embeds `ValueAssertion`: the shared assertion state plus the subject
value captured at construction. -/
structure ValueAssertion where
  assertion : Assertion
  val : GoVal

/-- Embeds `ValueAssertion.Not`: inverts the chain and returns it. -/
def ValueAssertion.Not (a : ValueAssertion) : ValueAssertion :=
  { a with assertion := a.assertion.Invert }

/-- The outcome of one terminal check that returned (rather than panicked):
the boolean result, the chain state after the call (the source mutates the
chain through its embedded pointer), and the failure-sink invocations in
order. -/
structure CheckOut where
  ret : Bool
  after : ValueAssertion
  sink : List Message

/-- Embeds `reflectIsPointer`: `reflect.ValueOf(v).Kind() == reflect.Ptr`. -/
def reflectIsPointer (v : GoVal) : Bool :=
  goKind v == GoKind.kptr

/-- Embeds `reflectIsNil`: `reflect.ValueOf(v).IsNil()`; the source only
calls it behind the pointer guard, where it is true exactly for the nil
pointer. -/
def reflectIsNil : GoVal → Bool
  | .ptrNil => true
  | _ => false

/-- Embeds `reflectElem`: `reflect.ValueOf(v).Elem().Interface()`; the source
only calls it on non-nil pointers. -/
def reflectElem : GoVal → GoVal
  | .ptrTo v => v
  | v => v

/-- Embeds `ValueAssertion.Nil`. -/
def ValueAssertion.Nil (a : ValueAssertion) (msgs : List GoVal) : Except String CheckOut :=
  match a.assertion.message msgs with
  | .error e => .error e
  | .ok msg =>
    if !reflectIsPointer a.val then
      .ok ⟨false, a, [msg.errorf ("value provided is not a pointer but is %T") [a.val]]⟩
    else
      if !a.assertion.invert && !reflectIsNil a.val then
        .ok ⟨false, a, [msg.multiLineErrorf ("expected nil; got:\n%+v") [reflectElem a.val]]⟩
      else if a.assertion.invert && reflectIsNil a.val then
        .ok ⟨false, a, [msg.errorf ("value is nil; expected not nil") []]⟩
      else
        .ok ⟨true, a, []⟩

/-- Embeds `ValueAssertion.True`. -/
def ValueAssertion.True (a : ValueAssertion) (msgs : List GoVal) : Except String CheckOut :=
  match a.assertion.message msgs with
  | .error e => .error e
  | .ok msg =>
    match goAsBool a.val with
    | none =>
        .ok ⟨false, a, [msg.errorf ("value is not boolean; is %T") [a.val]]⟩
    | some b =>
      if !a.assertion.invert && !b then
        .ok ⟨false, a, [msg.errorf ("value is false; expected true") []]⟩
      else if a.assertion.invert && b then
        .ok ⟨false, a, [msg.errorf ("value is true; expected false") []]⟩
      else
        .ok ⟨true, a, []⟩

/-- Embeds `ValueAssertion.False`: delegates to `Not().True(...)`. -/
def ValueAssertion.False (a : ValueAssertion) (msgs : List GoVal) : Except String CheckOut :=
  (a.Not).True msgs

/-- Embeds `ValueAssertion.Equals` (`reflect.DeepEqual` comparison). -/
def ValueAssertion.Equals (a : ValueAssertion) (exp : GoVal) (msgs : List GoVal) :
    Except String CheckOut :=
  match a.assertion.message msgs with
  | .error e => .error e
  | .ok msg =>
    if !a.assertion.invert && !GoVal.beq a.val exp then
      .ok ⟨false, a, [msg.multiLineErrorf ("%+v\n\n\tdoes not equal\n\n%+v") [a.val, exp]]⟩
    else if a.assertion.invert && GoVal.beq a.val exp then
      .ok ⟨false, a, [msg.multiLineErrorf ("both values are:\n%+v") [exp]]⟩
    else
      .ok ⟨true, a, []⟩

/-- Embeds `ValueAssertion.Equal`: calls `Equals`. -/
def ValueAssertion.Equal (a : ValueAssertion) (exp : GoVal) (msgs : List GoVal) :
    Except String CheckOut :=
  a.Equals exp msgs

/-- Result of `reflectContains`: a boolean, or a runtime panic escaping it. -/
inductive ContainsOut where
  | found (b : Bool)
  | panicked (m : String)

/-- Linear scan of slice elements: `exp == container.Index(i).Interface()`
for some index `i`. -/
def sliceScan (exp : GoVal) : GoList → Bool
  | .lnil => false
  | .lcons x xs => GoVal.beq exp x || sliceScan exp xs

/-- Embeds `reflectContains`. The pointer case recurses through `Elem` (an
invalid element, from a nil pointer, returns false). The slice case compares
`exp` with each element by interface equality. The map case embeds the
source's slip: `container` is already a `reflect.Value`, and the source
wraps it again (`rcon := reflect.ValueOf(container)`), so `rcon` has kind
Struct and `rcon.MapKeys()` panics at runtime with the Go runtime's message.
Byte slices hold no embedded elements equal to any `GoVal`, so they fall to
the default false, as does every remaining kind. -/
def reflectContains : GoVal → GoVal → ContainsOut
  | .ptrNil, _ => .found false
  | .ptrTo v, exp => reflectContains v exp
  | .slice xs, exp => .found (sliceScan exp xs)
  | .mapv _ _, _ => .panicked ("reflect: call of reflect.Value.MapKeys on struct Value")
  | _, _ => .found false

/-- Embeds the body of `ValueAssertion.Contains` after the containment
decision: the two failure branches over `container` and `exp`, then the
passing return. -/
def containsFinish (a : ValueAssertion) (msg : Message) (container exp : GoVal)
    (contains : Bool) : Except String CheckOut :=
  if !contains && !a.assertion.invert then
    .ok ⟨false, a, [msg.multiLineErrorf ("%+v\n\n\tdoes not contain\n\n%+v") [container, exp]]⟩
  else if contains && a.assertion.invert then
    .ok ⟨false, a, [msg.multiLineErrorf ("%+v\n\n\tdoes contain\n\n%+v") [container, exp]]⟩
  else
    .ok ⟨true, a, []⟩

/-- Embeds the `io.Reader` drain step at the top of `Contains`: a reader
subject is fully read and the consumed bytes replace it; every other
subject is untouched. -/
def drain : GoVal → GoVal
  | .reader data => .bytes data
  | v => v

/-- Embeds the `castString` closure of `Contains`: the source's closure
ignores its parameter and reads `a.val`, yielding the string content when
the subject is a string or a byte slice. -/
def castStringOf : GoVal → Option String
  | .str s => some s
  | .bytes d => some d
  | _ => none

/-- Embeds the body of `Contains` after the drain step, on the (possibly
replaced) chain `a`: if `exp` is a string and the subject casts to a
string, substring comparison decides and the cast string is the reported
container; otherwise `reflectContains` decides, and a panic escaping it
escapes `Contains`. -/
def containsBody (a : ValueAssertion) (msg : Message) (exp : GoVal) :
    Except String CheckOut :=
  match exp with
  | .str sexp =>
    match castStringOf a.val with
    | some sval =>
        containsFinish a msg (.str sval) exp (strContains sval sexp)
    | none =>
        match reflectContains a.val exp with
        | .panicked pm => .error pm
        | .found contains => containsFinish a msg a.val exp contains
  | _ =>
    match reflectContains a.val exp with
    | .panicked pm => .error pm
    | .found contains => containsFinish a msg a.val exp contains

/-- Embeds `ValueAssertion.Contains`. An `io.Reader` subject is drained and
the bytes replace `a.val` for the rest of the chain's life (the source
assigns `a.val = data`); the rest of the body is `containsBody`. -/
def ValueAssertion.Contains (a : ValueAssertion) (exp : GoVal) (vals : List GoVal) :
    Except String CheckOut :=
  match a.assertion.message vals with
  | .error e => .error e
  | .ok msg => containsBody { a with val := drain a.val } msg exp

/-- Embeds `ValueAssertion.Contain`: calls `Contains`. -/
def ValueAssertion.Contain (a : ValueAssertion) (exp : GoVal) (vals : List GoVal) :
    Except String CheckOut :=
  a.Contains exp vals

/-- Scan of map entries for the probe key (`MapIndex` lookup). -/
def GoEntries.hasKey (key : GoVal) : GoEntries → Bool
  | .enil => false
  | .econs k _ rest => GoVal.beq k key || GoEntries.hasKey key rest

/-- Embeds `reflectHasKey`. A nil interface subject returns `(false, nil)`
before any type inspection. A non-map subject and a key whose type differs
from the map's key type return the rendered `fmt.Errorf` strings (note: the
source formats the two `reflect.Type` values with `%T`, which prints the
type of the `reflect.Type` itself, `*reflect.rtype`, for both). -/
def reflectHasKey (value key : GoVal) : Bool × Option String :=
  match value with
  | .nilv => (false, none)
  | _ =>
    match value with
    | .mapv kt entries =>
        if kt ≠ goTypeOf key then
          (false, some ("map is keyed by type *reflect.rtype; key provided is type *reflect.rtype"))
        else
          (entries.hasKey key, none)
    | _ => (false, some ("value of type " ++ fmtT value ++ " is not a map"))

/-- Embeds `ValueAssertion.HasKey`. On a `reflectHasKey` error the source
reports `hasKey error: ...` through the sink and then returns
`a.Not().False()` on the same chain. -/
def ValueAssertion.HasKey (a : ValueAssertion) (key : GoVal) (vals : List GoVal) :
    Except String CheckOut :=
  match a.assertion.message vals with
  | .error e => .error e
  | .ok msg =>
    match reflectHasKey a.val key with
    | (_, some e) =>
        match (a.Not).False [] with
        | .error pe => .error pe
        | .ok out =>
            .ok { out with sink := msg.errorf ("hasKey error: %s") [.str e] :: out.sink }
    | (hasKey, none) =>
      if !hasKey && !a.assertion.invert then
        .ok ⟨false, a, [msg.errorf ("%+v\n\n\tdoes not have key\n\n%+v\n") [a.val, key]]⟩
      else if hasKey && a.assertion.invert then
        .ok ⟨false, a, [msg.errorf ("%+v\n\n\tdoes have key\n\n%+v") [a.val, key]]⟩
      else
        .ok ⟨true, a, []⟩

/-- Embeds `ValueAssertion.HaveKey`: calls `HasKey`. -/
def ValueAssertion.HaveKey (a : ValueAssertion) (key : GoVal) (vals : List GoVal) :
    Except String CheckOut :=
  a.HasKey key vals

/-- Observable behaviour of a wrapped zero-argument callable: it either runs
to completion, or panics with a recovered value (given here by its `%s`
rendering). -/
inductive FnBehavior where
  | completes
  | panics (recovered : String)

/-- Embeds `FunctionAssertion`: the shared assertion state plus the wrapped
callable. `AssertFn` installs `wrap`, which calls the callable and returns
true, so the stored `func() bool` returns true whenever it returns at all. -/
structure FunctionAssertion where
  assertion : Assertion
  fn : FnBehavior

/-- Embeds `FunctionAssertion.Not`: inverts the chain and returns it. -/
def FunctionAssertion.Not (a : FunctionAssertion) : FunctionAssertion :=
  { a with assertion := a.assertion.Invert }

/-- Embeds `deferExpectedPanic`, the deferred recovery handler of `Panic`:
`r` is the recovered value (`none` when the callable did not panic) and
`retbool` the named return value at the moment the handler runs. The two
failure branches report through the sink and write false into the return
slot; the handler then ends with the source's unconditional
`*retbool = true`, so the value it leaves behind is always true. Returns the
final return value and the sink invocations. -/
def FunctionAssertion.deferExpectedPanic (a : FunctionAssertion) (r : Option String)
    (retbool : Bool) (msg : Message) : Bool × List Message :=
  let st : Bool × List Message := (retbool, [])
  let st := if r.isNone && !a.assertion.invert then
      (false, st.2 ++ [msg.errorf ("did not panic") []])
    else st
  let st := match r with
    | some rv =>
        if a.assertion.invert then
          (false, st.2 ++ [msg.errorf ("code paniced with err: %s") [.str rv]])
        else st
    | none => st
  (true, st.2)

/-- Embeds `FunctionAssertion.Panic`: runs the wrapped callable with
`deferExpectedPanic` deferred over the named return `ret`. A completing
callable returns true into `ret` and the handler recovers nothing; a
panicking callable leaves `ret` at its zero value false and the handler
recovers the panic value. -/
def FunctionAssertion.Panic (a : FunctionAssertion) (vals : List GoVal) :
    Except String (Bool × List Message) :=
  match a.assertion.message vals with
  | .error e => .error e
  | .ok msg =>
    match a.fn with
    | .completes => .ok (a.deferExpectedPanic none true msg)
    | .panics rv => .ok (a.deferExpectedPanic (some rv) false msg)

/-- Embeds `FunctionAssertion.Panics`: calls `Panic`. -/
def FunctionAssertion.Panics (a : FunctionAssertion) (vals : List GoVal) :
    Except String (Bool × List Message) :=
  a.Panic vals

/-- Embeds the `promise` struct: the shared assertion state plus the single
value the spawned goroutine writes to the `done` channel — `a.fn()`, which
is true when the wrapped callable completes, and nothing when it panics
(the goroutine dies and the channel is never written, so the completion arm
of any later race can never fire). -/
structure GoPromise where
  assertion : Assertion
  done : Option Bool

/-- Embeds `FunctionAssertion.Promise`: spawns `go func() \x7b done <- a.fn() \x7d`
and returns the handle. -/
def FunctionAssertion.Promise (a : FunctionAssertion) : GoPromise :=
  { assertion := a.assertion,
    done := match a.fn with
      | .completes => some true
      | .panics _ => none }

/-- Embeds `promise.Not`: inverts the chain and returns it. -/
def GoPromise.Not (p : GoPromise) : GoPromise :=
  { p with assertion := p.assertion.Invert }

/-- Which arm of the `select` in `Timeout` fires first: the completion
channel or the `time.After` timer. The race itself is real time and outside
the embedding; the winner is passed in as an oracle. -/
inductive RaceOutcome where
  | completedFirst
  | timerFirst

/-- Embeds `promise.Timeout`. `d` is the rendered duration (`%s` of the
`time.Duration`). The completion arm can only fire when the channel was
written (`p.done = some v`); it assigns `ret = <-p.done` and then the
inverted chain overwrites it with false alongside the minimum-duration
message. The timer arm leaves `ret` at its zero value false with the
timeout message when not inverted, and sets it true when inverted. -/
def GoPromise.Timeout (p : GoPromise) (first : RaceOutcome) (d : String)
    (vals : List GoVal) : Except String (Bool × List Message) :=
  match p.assertion.message vals with
  | .error e => .error e
  | .ok msg =>
    match first, p.done with
    | .completedFirst, some v =>
        if p.assertion.invert then
          .ok (false, [msg.errorf ("function didn\x27t meet the minimum duration of %s") [.str d]])
        else
          .ok (v, [])
    | .completedFirst, none =>
        -- unreachable: nothing was ever sent on `done`, so this arm cannot win
        .ok (false, [])
    | .timerFirst, _ =>
        if !p.assertion.invert then
          .ok (false, [msg.errorf ("function reached timeout of %s") [.str d]])
        else
          .ok (true, [])

/-- C1: evaluation at the failing inputs. A non-inverted `Panic` on a
callable that completes normally invokes the failure sink with
"did not panic", and an inverted `Panic` on a panicking callable invokes it
with "code paniced with err: %s" — yet both calls return true, because
`deferExpectedPanic` ends with an unconditional write of true into the
return slot. The claim (and the package documentation, which says every
check's boolean indicates whether it passed) requires false here. -/
theorem C1_panic_returns_true_after_failure :
    FunctionAssertion.Panic ⟨⟨false, "[f:1]"⟩, .completes⟩ [] =
      .ok (true, [⟨"", [], "[f:1]", "did not panic", [], false⟩]) ∧
    FunctionAssertion.Panic ⟨⟨true, "[f:1]"⟩, .panics ("at the disco")⟩ [] =
      .ok (true, [⟨"", [], "[f:1]", "code paniced with err: %s", [.str ("at the disco")], false⟩]) :=
  ⟨rfl, rfl⟩

/-- C2 counterexample: with a nil subject the `hasKey error` path is not
taken at all — `reflectHasKey` returns `(false, nil)` before any type
inspection. An inverted `HasKey` on a nil subject therefore passes (returns
true) without any failure-sink invocation, contradicting the claim that a
nil subject reports the distinct error and yields a non-pass. -/
theorem C2_nil_subject_counterexample :
    ValueAssertion.HasKey ⟨⟨true, "[f:1]"⟩, .nilv⟩ (.str ("wantedKey")) [] =
      .ok ⟨true, ⟨⟨true, "[f:1]"⟩, .nilv⟩, []⟩ :=
  rfl

/-- C2 amended: a nil subject is treated as a map without the key, framed by
the normal pass/fail logic: non-inverted, `HasKey` reports the plain
"does not have key" failure and returns false; inverted, it passes with no
sink invocation. The distinct `hasKey error` path is reserved for non-nil
non-map subjects and mismatched key types. -/
theorem C2_nil_subject_amended (pfx : String) (key : GoVal) :
    ValueAssertion.HasKey ⟨⟨false, pfx⟩, .nilv⟩ key [] =
      .ok ⟨false, ⟨⟨false, pfx⟩, .nilv⟩,
        [⟨"", [], pfx, "%+v\n\n\tdoes not have key\n\n%+v\n", [.nilv, key], false⟩]⟩ ∧
    ValueAssertion.HasKey ⟨⟨true, pfx⟩, .nilv⟩ key [] =
      .ok ⟨true, ⟨⟨true, pfx⟩, .nilv⟩, []⟩ :=
  ⟨rfl, rfl⟩

/-- C3: evaluation at the failing input. `Contains` on a map subject (the
spec's own scenario map, probed for one of its values) panics with the Go
runtime's MapKeys error instead of returning a boolean: `reflectContains`
wraps its `reflect.Value` argument in `reflect.ValueOf` a second time, so
`MapKeys` runs on a struct-kinded value. The claim requires a boolean
return with nothing thrown past the assertion boundary. -/
theorem C3_contains_map_panics :
    ValueAssertion.Contains
      ⟨⟨false, "[f:1]"⟩, .mapv .tstring (.econs (.str ("gotKey")) (.str ("got")) .enil)⟩
      (.str ("got")) [] =
      .error ("reflect: call of reflect.Value.MapKeys on struct Value") :=
  rfl

/-- C5: `Timeout(d)` has exactly the four claimed outcomes. The wrapped
callable completes, so the promise's channel holds true. Completion first,
non-inverted: true with no message. Completion first, inverted: false with
the minimum-duration message. Timer first, non-inverted: false with the
timeout message. Timer first, inverted: true with no message. -/
theorem C5_timeout_four_outcomes (pfx d : String) :
    (FunctionAssertion.Promise ⟨⟨false, pfx⟩, .completes⟩).Timeout .completedFirst d [] =
      .ok (true, []) ∧
    (FunctionAssertion.Promise ⟨⟨true, pfx⟩, .completes⟩).Timeout .completedFirst d [] =
      .ok (false,
        [⟨"", [], pfx, "function didn\x27t meet the minimum duration of %s", [.str d], false⟩]) ∧
    (FunctionAssertion.Promise ⟨⟨false, pfx⟩, .completes⟩).Timeout .timerFirst d [] =
      .ok (false, [⟨"", [], pfx, "function reached timeout of %s", [.str d], false⟩]) ∧
    (FunctionAssertion.Promise ⟨⟨true, pfx⟩, .completes⟩).Timeout .timerFirst d [] =
      .ok (true, []) :=
  ⟨rfl, rfl, rfl, rfl⟩

/-- C9: `Nil` accepts only pointer-kinded subjects. For every embedded
subject shape other than a pointer — the nil interface value, strings, byte
slices, booleans, ints, slices, maps, channels, functions, and reader
structs — it takes the unconditional type-mismatch path, reporting
"value provided is not a pointer but is %T" and returning false for both
settings of the inversion flag. -/
theorem C9_nil_rejects_every_nonpointer_kind (pfx : String) (inv : Bool) :
    (ValueAssertion.Nil ⟨⟨inv, pfx⟩, .nilv⟩ [] =
      .ok ⟨false, ⟨⟨inv, pfx⟩, .nilv⟩,
        [⟨"", [], pfx, "value provided is not a pointer but is %T", [.nilv], false⟩]⟩) ∧
    (∀ s, ValueAssertion.Nil ⟨⟨inv, pfx⟩, .str s⟩ [] =
      .ok ⟨false, ⟨⟨inv, pfx⟩, .str s⟩,
        [⟨"", [], pfx, "value provided is not a pointer but is %T", [.str s], false⟩]⟩) ∧
    (∀ data, ValueAssertion.Nil ⟨⟨inv, pfx⟩, .bytes data⟩ [] =
      .ok ⟨false, ⟨⟨inv, pfx⟩, .bytes data⟩,
        [⟨"", [], pfx, "value provided is not a pointer but is %T", [.bytes data], false⟩]⟩) ∧
    (∀ b, ValueAssertion.Nil ⟨⟨inv, pfx⟩, .boolean b⟩ [] =
      .ok ⟨false, ⟨⟨inv, pfx⟩, .boolean b⟩,
        [⟨"", [], pfx, "value provided is not a pointer but is %T", [.boolean b], false⟩]⟩) ∧
    (∀ n, ValueAssertion.Nil ⟨⟨inv, pfx⟩, .intv n⟩ [] =
      .ok ⟨false, ⟨⟨inv, pfx⟩, .intv n⟩,
        [⟨"", [], pfx, "value provided is not a pointer but is %T", [.intv n], false⟩]⟩) ∧
    (∀ xs, ValueAssertion.Nil ⟨⟨inv, pfx⟩, .slice xs⟩ [] =
      .ok ⟨false, ⟨⟨inv, pfx⟩, .slice xs⟩,
        [⟨"", [], pfx, "value provided is not a pointer but is %T", [.slice xs], false⟩]⟩) ∧
    (∀ kt es, ValueAssertion.Nil ⟨⟨inv, pfx⟩, .mapv kt es⟩ [] =
      .ok ⟨false, ⟨⟨inv, pfx⟩, .mapv kt es⟩,
        [⟨"", [], pfx, "value provided is not a pointer but is %T", [.mapv kt es], false⟩]⟩) ∧
    (ValueAssertion.Nil ⟨⟨inv, pfx⟩, .chanv⟩ [] =
      .ok ⟨false, ⟨⟨inv, pfx⟩, .chanv⟩,
        [⟨"", [], pfx, "value provided is not a pointer but is %T", [.chanv], false⟩]⟩) ∧
    (ValueAssertion.Nil ⟨⟨inv, pfx⟩, .funcv⟩ [] =
      .ok ⟨false, ⟨⟨inv, pfx⟩, .funcv⟩,
        [⟨"", [], pfx, "value provided is not a pointer but is %T", [.funcv], false⟩]⟩) ∧
    (∀ data, ValueAssertion.Nil ⟨⟨inv, pfx⟩, .reader data⟩ [] =
      .ok ⟨false, ⟨⟨inv, pfx⟩, .reader data⟩,
        [⟨"", [], pfx, "value provided is not a pointer but is %T", [.reader data], false⟩]⟩) :=
  ⟨rfl, fun _ => rfl, fun _ => rfl, fun _ => rfl, fun _ => rfl, fun _ => rfl,
   fun _ _ => rfl, rfl, rfl, fun _ => rfl⟩

/-- C6: type-mismatch failures ignore the inversion flag. For every subject
whose kind is not pointer, `Nil` reports "value provided is not a pointer
but is %T" and returns false for either setting of the inversion flag, and
for every non-boolean subject, `True` reports "value is not boolean; is %T"
and returns false for either setting of the inversion flag. -/
theorem C6_type_mismatch_ignores_inversion (pfx : String) (inv : Bool) (v w : GoVal)
    (hp : goKind v ≠ GoKind.kptr) (hb : goAsBool w = none) :
    ValueAssertion.Nil ⟨⟨inv, pfx⟩, v⟩ [] =
      .ok ⟨false, ⟨⟨inv, pfx⟩, v⟩,
        [⟨"", [], pfx, "value provided is not a pointer but is %T", [v], false⟩]⟩ ∧
    ValueAssertion.True ⟨⟨inv, pfx⟩, w⟩ [] =
      .ok ⟨false, ⟨⟨inv, pfx⟩, w⟩,
        [⟨"", [], pfx, "value is not boolean; is %T", [w], false⟩]⟩ := by
  constructor
  · unfold ValueAssertion.Nil Assertion.message
    simp [reflectIsPointer, beq_eq_false_iff_ne, hp, Message.errorf]
  · unfold ValueAssertion.True Assertion.message
    simp [hb, Message.errorf]

/-- C6 witness: the spec's own scenarios — `Nil` on the string "value" under
an inverted chain, and `True` on the string "string value" under an
inverted chain — both fail with their type-mismatch messages. -/
theorem C6_type_mismatch_ignores_inversion_witness :
    ValueAssertion.Nil ⟨⟨true, "[f:1]"⟩, .str ("value")⟩ [] =
      .ok ⟨false, ⟨⟨true, "[f:1]"⟩, .str ("value")⟩,
        [⟨"", [], "[f:1]", "value provided is not a pointer but is %T",
          [.str ("value")], false⟩]⟩ ∧
    ValueAssertion.True ⟨⟨true, "[f:1]"⟩, .str ("string value")⟩ [] =
      .ok ⟨false, ⟨⟨true, "[f:1]"⟩, .str ("string value")⟩,
        [⟨"", [], "[f:1]", "value is not boolean; is %T",
          [.str ("string value")], false⟩]⟩ :=
  C6_type_mismatch_ignores_inversion ("[f:1]") true (.str ("value")) (.str ("string value"))
    (by decide) (by decide)

/-- C7: the message formatter renders the compact single-line form
`prefix ++ " " ++ assertion-message` exactly when no caller-supplied test
message is present (the empty string encodes absence in the source) and the
assertion message is not flagged multiline; otherwise the prefix ends its
line, a supplied test message is rendered on its own line, and the
assertion message follows on a new line. -/
theorem C7_message_render_forms (m : Message) :
    (m.testMessage = "" → m.assertionMultiline = false →
      m.render = m.assertionPfx ++ " " ++ sprintf m.assertionMessage m.assertionArgs) ∧
    (m.testMessage = "" → m.assertionMultiline = true →
      m.render = m.assertionPfx ++ "\n" ++ sprintf m.assertionMessage m.assertionArgs) ∧
    (m.testMessage ≠ "" →
      m.render = m.assertionPfx ++ "\n" ++ sprintf m.testMessage m.testArgs ++ "\n"
        ++ sprintf m.assertionMessage m.assertionArgs) := by
  refine ⟨?_, ?_, ?_⟩
  · intro h1 h2
    unfold Message.render
    simp [h1, h2]
  · intro h1 h2
    unfold Message.render
    simp [h1, h2]
  · intro h1
    unfold Message.render
    simp [beq_eq_false_iff_ne, bne_iff_ne, h1, String.append_assoc]

/-- C7 witness: the three forms at concrete messages — a compact
single-line diagnostic, a multiline diagnostic without a test message, and
a single-line diagnostic with a test message. -/
theorem C7_message_render_forms_witness :
    Message.render ⟨"", [], "[f:1]", "did not panic", [], false⟩ =
      "[f:1] did not panic" ∧
    Message.render ⟨"", [], "[f:1]", "both values are:\nwanted", [], true⟩ =
      "[f:1]\nboth values are:\nwanted" ∧
    Message.render ⟨"we wanted a false here", [], "[f:1]", "value is true; expected false", [], false⟩ =
      "[f:1]\nwe wanted a false here\nvalue is true; expected false" := by
  refine ⟨?_, ?_, ?_⟩
  · rw [(C7_message_render_forms ⟨"", [], "[f:1]", "did not panic", [], false⟩).1 rfl rfl]
    decide
  · rw [(C7_message_render_forms ⟨"", [], "[f:1]", "both values are:\nwanted", [], true⟩).2.1 rfl rfl]
    decide
  · rw [(C7_message_render_forms
      ⟨"we wanted a false here", [], "[f:1]", "value is true; expected false", [], false⟩).2.2
      (by decide)]
    decide

/-- C8: if trailing message arguments are supplied and the first is not a
string, every terminal check panics at once with the source's usage-error
text — the `Except.error` outcome, which carries no boolean result and no
failure-sink invocation. Covered: Nil, True, False, Equals, Contains,
HasKey, Panic, and Timeout. -/
theorem C8_nonstring_message_arg_is_usage_error (pfx : String) (inv : Bool)
    (subject exp key v : GoVal) (rest : List GoVal) (fb : FnBehavior)
    (first : RaceOutcome) (dn : Option Bool) (d : String)
    (hv : goAsString v = none) :
    ValueAssertion.Nil ⟨⟨inv, pfx⟩, subject⟩ (v :: rest) =
      .error ("first parameter after expected value must be a string") ∧
    ValueAssertion.True ⟨⟨inv, pfx⟩, subject⟩ (v :: rest) =
      .error ("first parameter after expected value must be a string") ∧
    ValueAssertion.False ⟨⟨inv, pfx⟩, subject⟩ (v :: rest) =
      .error ("first parameter after expected value must be a string") ∧
    ValueAssertion.Equals ⟨⟨inv, pfx⟩, subject⟩ exp (v :: rest) =
      .error ("first parameter after expected value must be a string") ∧
    ValueAssertion.Contains ⟨⟨inv, pfx⟩, subject⟩ exp (v :: rest) =
      .error ("first parameter after expected value must be a string") ∧
    ValueAssertion.HasKey ⟨⟨inv, pfx⟩, subject⟩ key (v :: rest) =
      .error ("first parameter after expected value must be a string") ∧
    FunctionAssertion.Panic ⟨⟨inv, pfx⟩, fb⟩ (v :: rest) =
      .error ("first parameter after expected value must be a string") ∧
    GoPromise.Timeout ⟨⟨inv, pfx⟩, dn⟩ first d (v :: rest) =
      .error ("first parameter after expected value must be a string") := by
  refine ⟨?_, ?_, ?_, ?_, ?_, ?_, ?_, ?_⟩
  · unfold ValueAssertion.Nil Assertion.message
    simp [hv]
  · unfold ValueAssertion.True Assertion.message
    simp [hv]
  · unfold ValueAssertion.False ValueAssertion.True ValueAssertion.Not Assertion.message
    simp [hv]
  · unfold ValueAssertion.Equals Assertion.message
    simp [hv]
  · unfold ValueAssertion.Contains Assertion.message
    simp [hv]
  · unfold ValueAssertion.HasKey Assertion.message
    simp [hv]
  · unfold FunctionAssertion.Panic Assertion.message
    simp [hv]
  · unfold GoPromise.Timeout Assertion.message
    simp [hv]

/-- C8 witness: supplying an int (1) as the first trailing message argument
makes `True` panic with the usage-error message instead of reporting. -/
theorem C8_nonstring_message_arg_is_usage_error_witness :
    ValueAssertion.True ⟨⟨false, "[f:1]"⟩, .boolean false⟩ [.intv 1] =
      .error ("first parameter after expected value must be a string") :=
  (C8_nonstring_message_arg_is_usage_error ("[f:1]") false (.boolean false) .nilv .nilv
    (.intv 1) [] .completes .timerFirst none ("1s") (by decide)).2.1

/-- C4 counterexample: `Contains` on an `io.Reader` subject replaces the
subject stored in the assertion with the drained bytes — the state after
the call holds `bytes "data"`, not the `reader "data"` fixed at
construction, contradicting the claim that no terminal check mutates the
subject value. -/
theorem C4_reader_subject_mutated :
    ValueAssertion.Contains ⟨⟨false, "[f:1]"⟩, .reader ("data")⟩ (.str ("x")) [] =
      .ok ⟨false, ⟨⟨false, "[f:1]"⟩, .bytes ("data")⟩,
        [⟨"", [], "[f:1]", "%+v\n\n\tdoes not contain\n\n%+v",
          [.str ("data"), .str ("x")], true⟩]⟩ ∧
    GoVal.bytes ("data") ≠ GoVal.reader ("data") :=
  ⟨rfl, fun h => GoVal.noConfusion h⟩

/-- C4 amended: no terminal check other than `Contains` mutates the subject
value, and `Contains` leaves it at the drained subject — which equals the
original for every non-reader subject, and is the drained bytes for a
reader subject. -/
theorem C4_checks_mutate_only_reader_subjects :
    (∀ a msgs out, ValueAssertion.Nil a msgs = .ok out → out.after.val = a.val) ∧
    (∀ a msgs out, ValueAssertion.True a msgs = .ok out → out.after.val = a.val) ∧
    (∀ a msgs out, ValueAssertion.False a msgs = .ok out → out.after.val = a.val) ∧
    (∀ a exp msgs out, ValueAssertion.Equals a exp msgs = .ok out → out.after.val = a.val) ∧
    (∀ a key msgs out, ValueAssertion.HasKey a key msgs = .ok out → out.after.val = a.val) ∧
    (∀ a exp msgs out, ValueAssertion.Contains a exp msgs = .ok out →
      out.after.val = drain a.val) ∧
    (∀ data, drain (GoVal.reader data) = GoVal.bytes data) ∧
    (∀ v, (∀ data, v ≠ GoVal.reader data) → drain v = v) := by
  have hNil : ∀ a msgs out, ValueAssertion.Nil a msgs = .ok out → out.after.val = a.val := by
    intro a msgs out h
    unfold ValueAssertion.Nil at h
    (repeat' split at h) <;>
      first
        | exact Except.noConfusion h
        | (cases h; rfl)
  have hTrue : ∀ a msgs out, ValueAssertion.True a msgs = .ok out → out.after.val = a.val := by
    intro a msgs out h
    unfold ValueAssertion.True at h
    (repeat' split at h) <;>
      first
        | exact Except.noConfusion h
        | (cases h; rfl)
  have hFalse : ∀ a msgs out, ValueAssertion.False a msgs = .ok out → out.after.val = a.val := by
    intro a msgs out h
    unfold ValueAssertion.False at h
    exact hTrue (a.Not) msgs out h
  have hEquals : ∀ a exp msgs out, ValueAssertion.Equals a exp msgs = .ok out →
      out.after.val = a.val := by
    intro a exp msgs out h
    unfold ValueAssertion.Equals at h
    (repeat' split at h) <;>
      first
        | exact Except.noConfusion h
        | (cases h; rfl)
  have hHasKey : ∀ a key msgs out, ValueAssertion.HasKey a key msgs = .ok out →
      out.after.val = a.val := by
    intro a key msgs out h
    unfold ValueAssertion.HasKey at h
    split at h
    · exact Except.noConfusion h
    · split at h
      · split at h
        · exact Except.noConfusion h
        · rename_i out' heq
          cases h
          exact hFalse (a.Not) [] out' heq
      · (repeat' split at h) <;>
          first
            | exact Except.noConfusion h
            | (cases h; rfl)
  have hFinish : ∀ a msg c e b out, containsFinish a msg c e b = .ok out → out.after = a := by
    intro a msg c e b out h
    unfold containsFinish at h
    (repeat' split at h) <;> (cases h; rfl)
  have hBody : ∀ a msg exp out, containsBody a msg exp = .ok out → out.after = a := by
    intro a msg exp out h
    unfold containsBody at h
    (repeat' split at h) <;>
      first
        | exact Except.noConfusion h
        | exact hFinish _ _ _ _ _ _ h
  have hContains : ∀ a exp msgs out, ValueAssertion.Contains a exp msgs = .ok out →
      out.after.val = drain a.val := by
    intro a exp msgs out h
    unfold ValueAssertion.Contains at h
    split at h
    · exact Except.noConfusion h
    · rw [hBody _ _ _ _ h]
  refine ⟨hNil, hTrue, hFalse, hEquals, hHasKey, hContains, fun _ => rfl, ?_⟩
  intro v hv
  cases v <;> first | rfl | exact absurd rfl (hv _)

/-- C4 amended witness: the Contains conjunct applied at a reader subject
(the state after the call holds the drained bytes), and the drain-identity
conjunct applied at a string subject. -/
theorem C4_checks_mutate_only_reader_subjects_witness :
    (CheckOut.after
      ⟨false, ⟨⟨false, "[f:1]"⟩, .bytes ("data")⟩,
        [⟨"", [], "[f:1]", "%+v\n\n\tdoes not contain\n\n%+v",
          [.str ("data"), .str ("x")], true⟩]⟩).val = drain (GoVal.reader ("data")) ∧
    drain (GoVal.str ("value")) = GoVal.str ("value") := by
  constructor
  · exact C4_checks_mutate_only_reader_subjects.2.2.2.2.2.1
      ⟨⟨false, "[f:1]"⟩, .reader ("data")⟩ (.str ("x")) [] _ rfl
  · exact C4_checks_mutate_only_reader_subjects.2.2.2.2.2.2.2
      (GoVal.str ("value")) (fun _ h => GoVal.noConfusion h)

/-- C10 counterexample: on the error path with the boolean subject `false`
(a non-mapping subject), `HasKey` invokes the sink exactly once (the
`hasKey error` message), delegates to `Not().False()` — which, the chain now
being inverted over a false boolean, passes — and returns true, not false,
with no second "value is not boolean" sink invocation. -/
theorem C10_bool_false_subject_counterexample :
    ValueAssertion.HasKey ⟨⟨false, "[f:1]"⟩, .boolean false⟩ (.str ("k")) [] =
      .ok ⟨true, ⟨⟨true, "[f:1]"⟩, .boolean false⟩,
        [⟨"", [], "[f:1]", "hasKey error: %s",
          [.str ("value of type bool is not a map")], false⟩]⟩ :=
  rfl

/-- C10 amended: whenever `HasKey` takes its check-internal error path it
reports `hasKey error: %s` through the sink, permanently sets the chain's
inversion flag, and delegates its return value to `Not().False()` on the
same chain. For every non-boolean subject that delegation invokes the sink
a second time with "value is not boolean; is %T" and returns false; for the
boolean subject true it instead invokes the sink a second time with
"value is true; expected false" and returns false; for the boolean subject
false there is no second sink invocation and `HasKey` returns true. -/
theorem C10_error_path_delegates_to_not_false (pfx : String) (inv : Bool) (v key : GoVal)
    (b : Bool) (e : String) (he : reflectHasKey v key = (b, some e)) :
    (goAsBool v = none →
      ValueAssertion.HasKey ⟨⟨inv, pfx⟩, v⟩ key [] =
        .ok ⟨false, ⟨⟨true, pfx⟩, v⟩,
          [⟨"", [], pfx, "hasKey error: %s", [.str e], false⟩,
           ⟨"", [], pfx, "value is not boolean; is %T", [v], false⟩]⟩) ∧
    (v = .boolean true →
      ValueAssertion.HasKey ⟨⟨inv, pfx⟩, v⟩ key [] =
        .ok ⟨false, ⟨⟨true, pfx⟩, v⟩,
          [⟨"", [], pfx, "hasKey error: %s", [.str e], false⟩,
           ⟨"", [], pfx, "value is true; expected false", [], false⟩]⟩) ∧
    (v = .boolean false →
      ValueAssertion.HasKey ⟨⟨inv, pfx⟩, v⟩ key [] =
        .ok ⟨true, ⟨⟨true, pfx⟩, v⟩,
          [⟨"", [], pfx, "hasKey error: %s", [.str e], false⟩]⟩) := by
  refine ⟨?_, ?_, ?_⟩
  · intro hb
    unfold ValueAssertion.HasKey Assertion.message
    rw [show (⟨⟨inv, pfx⟩, v⟩ : ValueAssertion).val = v from rfl, he]
    unfold ValueAssertion.False ValueAssertion.Not ValueAssertion.True Assertion.Invert
      Assertion.message
    simp [hb, Message.errorf]
  · intro hv
    subst hv
    unfold ValueAssertion.HasKey Assertion.message
    rw [show (⟨⟨inv, pfx⟩, .boolean true⟩ : ValueAssertion).val = .boolean true from rfl, he]
    rfl
  · intro hv
    subst hv
    unfold ValueAssertion.HasKey Assertion.message
    rw [show (⟨⟨inv, pfx⟩, .boolean false⟩ : ValueAssertion).val = .boolean false from rfl, he]
    rfl

/-- C10 amended witness: the non-boolean conjunct applied to an int subject
— two sink invocations, the inversion flag left set, and a false return. -/
theorem C10_error_path_delegates_to_not_false_witness :
    ValueAssertion.HasKey ⟨⟨false, "[f:1]"⟩, .intv 7⟩ (.str ("k")) [] =
      .ok ⟨false, ⟨⟨true, "[f:1]"⟩, .intv 7⟩,
        [⟨"", [], "[f:1]", "hasKey error: %s",
          [.str ("value of type int is not a map")], false⟩,
         ⟨"", [], "[f:1]", "value is not boolean; is %T", [.intv 7], false⟩]⟩ :=
  (C10_error_path_delegates_to_not_false ("[f:1]") false (.intv 7) (.str ("k")) false
    "value of type int is not a map" rfl).1 rfl

end Minass
